import Mathlib

/-!
Verification of the Visual Product Matcher backend (`app.py`).

The Python source is shallowly embedded: pure functions become Lean
functions, the in-memory embedding cache becomes explicit state passing,
Python `float` arithmetic on similarity scores is modelled exactly over `ℚ`
(the literal `1.3` becomes `13/10`), Python `str.lower()` is modelled as
ASCII case folding, and Python `str.split()` / `in` / `strip()` are given
faithful executable models over `List Char`.
-/

namespace VPM

/-- Python `str.isspace` characters relevant to `str.split()` (ASCII subset). -/
def pyIsSpace (c : Char) : Bool :=
  c == ' ' || c == '\t' || c == '\n' || c == '\r' || c == '\x0b' || c == '\x0c'

/-- ASCII case folding, modelling Python `str.lower()` on the ASCII range. -/
def pyCharLower (c : Char) : Char :=
  if 'A' ≤ c && c ≤ 'Z' then Char.ofNat (c.toNat + 32) else c

/-- Lowercase a character list (model of `str.lower()`). -/
def pyLower (l : List Char) : List Char := l.map pyCharLower

/-- Lowercase a string (model of `str.lower()`). -/
def lowerStr (s : String) : String := ⟨pyLower s.data⟩

/-- Worker for `pySplit`: accumulates the current token in `acc`. -/
def pySplitAux : List Char → List Char → List (List Char)
  | [], acc => if acc.isEmpty then [] else [acc]
  | c :: rest, acc =>
    if pyIsSpace c then
      if acc.isEmpty then pySplitAux rest [] else acc :: pySplitAux rest []
    else pySplitAux rest (acc ++ [c])

/-- Model of Python `str.split()` with no argument: split on runs of
whitespace, producing no empty tokens. -/
def pySplit (s : List Char) : List (List Char) := pySplitAux s []

/-- `set(embedding.lower().split())` from `calculate_similarity` (app.py:204). -/
def tokens (s : String) : Finset (List Char) := (pySplit (pyLower s.data)).toFinset

/-- Whether `needle` matches at the head of `hay`. -/
def prefixMatch : List Char → List Char → Bool
  | [], _ => true
  | _ :: _, [] => false
  | a :: as, b :: bs => a == b && prefixMatch as bs

/-- Model of Python `needle in hay` substring containment. -/
def substrIn (needle hay : List Char) : Bool :=
  match hay with
  | [] => needle.isEmpty
  | c :: t => prefixMatch needle (c :: t) || substrIn needle t

/-- The fixed category keyword vocabulary (app.py:217-223). -/
def category_keywords : List String :=
  ["phone", "laptop", "camera", "shoes", "watch", "headphones",
   "tablet", "monitor", "keyboard", "mouse", "speaker", "jacket",
   "jeans", "sunglasses", "chair", "desk", "bottle", "vacuum",
   "smartphone", "computer", "footwear", "clothing", "furniture",
   "electronics", "accessory", "home", "device"]

/-- The `category_match` check of `calculate_similarity` (app.py:226-229):
some keyword is a substring of both lowercased inputs. -/
def keyword_match (embedding1 embedding2 : String) : Bool :=
  category_keywords.any fun k =>
    substrIn k.data (pyLower embedding1.data) && substrIn k.data (pyLower embedding2.data)

/-- The Jaccard coefficient |A ∩ B| / |A ∪ B| over lowercase token sets
(`ℚ` division, so an empty union yields `0`).  This is the claim-side name
for the `base_similarity` computed at app.py:214. -/
def jaccard (a b : String) : ℚ :=
  ((tokens a ∩ tokens b).card : ℚ) / ((tokens a ∪ tokens b).card : ℚ)

/-- `calculate_similarity` (app.py:176-235), with `float` arithmetic
modelled exactly over `ℚ` (`1.3` is `13/10`). -/
def calculate_similarity (embedding1 embedding2 : String) : ℚ :=
  let words1 := tokens embedding1
  let words2 := tokens embedding2
  let inter := words1 ∩ words2
  let un := words1 ∪ words2
  if un.card = 0 then 0
  else
    let base : ℚ := (inter.card : ℚ) / (un.card : ℚ)
    let similarity := if keyword_match embedding1 embedding2 then base * (13/10 : ℚ) else base
    min similarity 1

lemma calculate_similarity_eq (a b : String) :
    calculate_similarity a b =
      if (tokens a ∪ tokens b).card = 0 then 0
      else
        min (if keyword_match a b
              then ((tokens a ∩ tokens b).card : ℚ) / ((tokens a ∪ tokens b).card : ℚ) * (13/10 : ℚ)
              else ((tokens a ∩ tokens b).card : ℚ) / ((tokens a ∪ tokens b).card : ℚ)) 1 := rfl

lemma base_nonneg (a b : String) :
    0 ≤ ((tokens a ∩ tokens b).card : ℚ) / ((tokens a ∪ tokens b).card : ℚ) :=
  div_nonneg (Nat.cast_nonneg _) (Nat.cast_nonneg _)

lemma inter_card_le_union_card (a b : String) :
    (tokens a ∩ tokens b).card ≤ (tokens a ∪ tokens b).card :=
  Finset.card_le_card (Finset.inter_subset_left.trans Finset.subset_union_left)

lemma base_le_one (a b : String) :
    ((tokens a ∩ tokens b).card : ℚ) / ((tokens a ∪ tokens b).card : ℚ) ≤ 1 := by
  rcases Nat.eq_zero_or_pos (tokens a ∪ tokens b).card with h | h
  · simp [h]
  · rw [div_le_one (by exact_mod_cast h)]
    exact_mod_cast inter_card_le_union_card a b

lemma any_and_comm {α : Type} (l : List α) (f g : α → Bool) :
    (l.any fun k => f k && g k) = (l.any fun k => g k && f k) := by
  induction l with
  | nil => rfl
  | cons x xs ih => simp only [List.any_cons, ih, Bool.and_comm]

lemma keyword_match_comm (a b : String) : keyword_match a b = keyword_match b a :=
  any_and_comm category_keywords _ _

/-- C2: `calculate_similarity` is total and bounded: every result lies in
`[0, 1]`, and with both token sets empty (e.g. two empty strings) the
guarded division returns `0` rather than dividing by zero. -/
theorem calculate_similarity_bounded (a b : String) :
    0 ≤ calculate_similarity a b ∧ calculate_similarity a b ≤ 1 ∧
      calculate_similarity "" "" = 0 := by
  refine ⟨?_, ?_, by decide⟩
  · rw [calculate_similarity_eq]
    by_cases h : (tokens a ∪ tokens b).card = 0
    · simp [h]
    · simp only [h, if_false]
      refine le_min ?_ (by norm_num)
      by_cases hk : keyword_match a b
      · simp only [hk, if_true]
        exact mul_nonneg (base_nonneg a b) (by norm_num)
      · simp only [hk, Bool.false_eq_true, if_false]
        exact base_nonneg a b
  · rw [calculate_similarity_eq]
    by_cases h : (tokens a ∪ tokens b).card = 0
    · simp [h]
    · simp only [h, if_false]
      exact min_le_right _ 1

/-- C9: `calculate_similarity` is commutative: token-set intersection and
union are symmetric, and the both-sides keyword check is symmetric. -/
theorem calculate_similarity_comm (a b : String) :
    calculate_similarity a b = calculate_similarity b a := by
  rw [calculate_similarity_eq, calculate_similarity_eq,
    Finset.union_comm (tokens a), Finset.inter_comm (tokens a), keyword_match_comm a b]

/-- C1: when some category keyword occurs as a substring of both lowercased
inputs the score is `min (jaccard * 13/10) 1`; otherwise it is exactly the
unboosted Jaccard coefficient. -/
theorem calculate_similarity_keyword_boost (a b : String) :
    (keyword_match a b = true →
      calculate_similarity a b = min (jaccard a b * (13/10 : ℚ)) 1)
    ∧ (keyword_match a b = false →
      calculate_similarity a b = jaccard a b) := by
  constructor
  · intro hk
    rw [calculate_similarity_eq]
    unfold jaccard
    by_cases h : (tokens a ∪ tokens b).card = 0
    · have hi : (tokens a ∩ tokens b).card = 0 :=
        Nat.le_zero.mp (h ▸ inter_card_le_union_card a b)
      simp [h, hi]
    · simp [h, hk]
  · intro hk
    rw [calculate_similarity_eq]
    unfold jaccard
    by_cases h : (tokens a ∪ tokens b).card = 0
    · simp [h]
    · simp only [h, if_false, hk, Bool.false_eq_true]
      exact min_eq_left (base_le_one a b)

/-- Witness for C1 at concrete inputs: "phone" appears in both strings of
the first pair; the second pair shares no category keyword. -/
theorem calculate_similarity_keyword_boost_witness :
    (keyword_match "blue phone case" "red phone cover" = true ∧
      calculate_similarity "blue phone case" "red phone cover"
        = min (jaccard "blue phone case" "red phone cover" * (13/10 : ℚ)) 1)
    ∧ (keyword_match "red hat" "blue scarf" = false ∧
      calculate_similarity "red hat" "blue scarf" = jaccard "red hat" "blue scarf") :=
  ⟨⟨by decide, (calculate_similarity_keyword_boost "blue phone case" "red phone cover").1 (by decide)⟩,
   ⟨by decide, (calculate_similarity_keyword_boost "red hat" "blue scarf").2 (by decide)⟩⟩

/-- A product record from `products.json` (app.py:57-67, validate_products.py). -/
structure Product where
  id : Int
  name : String
  category : String
  price : ℚ
  image_url : String
  description : String

/-- The in-memory embedding cache `product_embeddings_cache : Dict[int, str]`
(app.py:70), modelled as an association list with newest entries first. -/
abbrev Cache : Type := List (Int × String)

/-- Python dict lookup `product_id in cache` / `cache[product_id]`. -/
def cacheFind (c : Cache) (k : Int) : Option String :=
  match c with
  | [] => none
  | (k1, v) :: rest => if k1 = k then some v else cacheFind rest k

/-- The embedding text computed at app.py:270-273:
`lowercase(name + " " + category + " " + description)`. -/
def product_embedding_text (p : Product) : String :=
  lowerStr (p.name ++ " " ++ p.category ++ " " ++ p.description)

/-- `get_product_embedding` (app.py:238-276) with the process-wide cache made
an explicit argument: return the cached embedding when present, otherwise
compute, store and return it. -/
def get_product_embedding (c : Cache) (p : Product) : String × Cache :=
  match cacheFind c p.id with
  | some e => (e, c)
  | none =>
    let embedding := product_embedding_text p
    (embedding, (p.id, embedding) :: c)

/-- The process state observable by the handlers: the immutable catalog
`PRODUCTS` and the mutable embedding cache. -/
structure ServerState where
  products : List Product
  cache : Cache

/-- `get_product_embedding` lifted to the full server state (it only ever
touches the cache; the catalog is untouched). -/
def get_product_embedding_st (s : ServerState) (p : Product) : String × ServerState :=
  ((get_product_embedding s.cache p).1,
   ⟨s.products, (get_product_embedding s.cache p).2⟩)

lemma cacheFind_cons (k1 : Int) (v : String) (c : Cache) (k : Int) :
    cacheFind ((k1, v) :: c) k = if k1 = k then some v else cacheFind c k := rfl

/-- C4: on a first call (identifier not yet cached) `get_product_embedding`
computes and stores `lowercase(name + " " + category + " " + description)`;
a subsequent call with the same identifier returns the identical stored
string and changes nothing, and no other cache entry nor the catalog is
modified. -/
theorem get_product_embedding_cache_contract (s : ServerState) (p : Product)
    (h : cacheFind s.cache p.id = none) :
    (get_product_embedding_st s p).1 = product_embedding_text p
    ∧ cacheFind (get_product_embedding_st s p).2.cache p.id
        = some (get_product_embedding_st s p).1
    ∧ (get_product_embedding_st s p).2.products = s.products
    ∧ (∀ k : Int, k ≠ p.id →
        cacheFind (get_product_embedding_st s p).2.cache k = cacheFind s.cache k)
    ∧ (get_product_embedding_st (get_product_embedding_st s p).2 p).1
        = (get_product_embedding_st s p).1
    ∧ (get_product_embedding_st (get_product_embedding_st s p).2 p).2
        = (get_product_embedding_st s p).2 := by
  have h1 : get_product_embedding s.cache p =
      (product_embedding_text p, (p.id, product_embedding_text p) :: s.cache) := by
    unfold get_product_embedding
    rw [h]
  have hfind : cacheFind ((p.id, product_embedding_text p) :: s.cache) p.id
      = some (product_embedding_text p) := by
    rw [cacheFind_cons, if_pos rfl]
  refine ⟨?_, ?_, rfl, ?_, ?_, ?_⟩
  · simp [get_product_embedding_st, h1]
  · simp only [get_product_embedding_st, h1]
    exact hfind
  · intro k hk
    simp only [get_product_embedding_st, h1]
    rw [cacheFind_cons, if_neg (fun he => hk he.symm)]
  · simp only [get_product_embedding_st, h1]
    unfold get_product_embedding
    rw [hfind]
  · simp only [get_product_embedding_st, h1]
    unfold get_product_embedding
    rw [hfind]

/-- Witness for C4: a concrete product against an empty cache. -/
theorem get_product_embedding_cache_contract_witness :
    cacheFind ([] : Cache) (1 : Int) = none
    ∧ (get_product_embedding_st ⟨[], []⟩
          ⟨1, "iPhone 15", "Electronics", 999, "u", "Latest smartphone"⟩).1
        = product_embedding_text ⟨1, "iPhone 15", "Electronics", 999, "u", "Latest smartphone"⟩ :=
  ⟨rfl, (get_product_embedding_cache_contract ⟨[], []⟩
    ⟨1, "iPhone 15", "Electronics", 999, "u", "Latest smartphone"⟩ rfl).1⟩

/-- Round-half-to-even on `ℚ`, modelling Python's banker's rounding. -/
def round_half_even (q : ℚ) : ℤ :=
  let f := ⌊q⌋
  let r := q - (f : ℚ)
  if r < 1/2 then f
  else if 1/2 < r then f + 1
  else if f % 2 = 0 then f else f + 1

/-- `round(similarity, 4)` (app.py:431), modelled over `ℚ`. -/
def round4 (q : ℚ) : ℚ := (round_half_even (q * 10000) : ℚ) / 10000

section StableSort

variable {α : Type}

/-- Insert `x` in front of the first element whose score is not larger:
one step of a stable descending insertion sort on score. -/
def insertDesc (x : α × ℚ) : List (α × ℚ) → List (α × ℚ)
  | [] => [x]
  | y :: ys => if y.2 ≤ x.2 then x :: y :: ys else y :: insertDesc x ys

/-- Model of `similarities.sort(key=lambda x: x['similarity'], reverse=True)`
(app.py:435).  Python's sort is stable; a stable descending sort by score is
a unique function of its input, here realised as an insertion sort. -/
def sortDesc (l : List (α × ℚ)) : List (α × ℚ) := l.foldr insertDesc []

lemma perm_insertDesc (x : α × ℚ) (l : List (α × ℚ)) :
    (insertDesc x l).Perm (x :: l) := by
  induction l with
  | nil => exact List.Perm.refl _
  | cons y ys ih =>
    unfold insertDesc
    by_cases h : y.2 ≤ x.2
    · rw [if_pos h]
    · rw [if_neg h]
      exact (ih.cons y).trans (List.Perm.swap x y ys)

lemma sortDesc_perm (l : List (α × ℚ)) : (sortDesc l).Perm l := by
  induction l with
  | nil => exact List.Perm.refl _
  | cons x xs ih =>
    exact (perm_insertDesc x (sortDesc xs)).trans (ih.cons x)

lemma mem_insertDesc {x z : α × ℚ} {l : List (α × ℚ)} (h : z ∈ insertDesc x l) :
    z = x ∨ z ∈ l := by
  have := (perm_insertDesc x l).mem_iff.mp h
  simpa using this

lemma pairwise_insertDesc {x : α × ℚ} {l : List (α × ℚ)}
    (h : l.Pairwise fun u v => v.2 ≤ u.2) :
    (insertDesc x l).Pairwise fun u v => v.2 ≤ u.2 := by
  induction l with
  | nil => simp [insertDesc]
  | cons y ys ih =>
    rw [List.pairwise_cons] at h
    unfold insertDesc
    by_cases hxy : y.2 ≤ x.2
    · rw [if_pos hxy]
      refine List.pairwise_cons.mpr ⟨?_, List.pairwise_cons.mpr ⟨h.1, h.2⟩⟩
      intro z hz
      rcases List.mem_cons.mp hz with rfl | hz
      · exact hxy
      · exact (h.1 z hz).trans hxy
    · rw [if_neg hxy]
      refine List.pairwise_cons.mpr ⟨?_, ih h.2⟩
      intro z hz
      rcases mem_insertDesc hz with rfl | hz
      · exact le_of_lt (lt_of_not_le hxy)
      · exact h.1 z hz

lemma sortDesc_sorted (l : List (α × ℚ)) :
    (sortDesc l).Pairwise fun u v => v.2 ≤ u.2 := by
  induction l with
  | nil => simp [sortDesc]
  | cons x xs ih => exact pairwise_insertDesc ih

lemma filter_insertDesc (x : α × ℚ) (l : List (α × ℚ)) (v : ℚ) :
    (insertDesc x l).filter (fun z => decide (z.2 = v))
      = if x.2 = v then x :: l.filter (fun z => decide (z.2 = v))
        else l.filter (fun z => decide (z.2 = v)) := by
  induction l with
  | nil =>
    by_cases hx : x.2 = v <;> simp [insertDesc, hx]
  | cons y ys ih =>
    unfold insertDesc
    by_cases hxy : y.2 ≤ x.2
    · rw [if_pos hxy]
      by_cases hx : x.2 = v <;> simp [List.filter_cons, hx]
    · rw [if_neg hxy]
      by_cases hx : x.2 = v
      · have hy : ¬ y.2 = v := by
          intro he
          exact hxy (le_of_eq (hx ▸ he))
        simp [List.filter_cons, hy, ih, hx]
      · simp only [List.filter_cons, ih, if_neg hx]

lemma filter_sortDesc (l : List (α × ℚ)) (v : ℚ) :
    (sortDesc l).filter (fun z => decide (z.2 = v))
      = l.filter (fun z => decide (z.2 = v)) := by
  induction l with
  | nil => rfl
  | cons x xs ih =>
    show (insertDesc x (sortDesc xs)).filter _ = _
    rw [filter_insertDesc]
    by_cases hx : x.2 = v <;> simp [List.filter_cons, hx, ih]

end StableSort

/-- The response assembled by `search_products` (app.py:440-445); `analysis`
and `success` carry no ranking content and are omitted. -/
structure SearchResponse where
  results : List (Product × ℚ)
  total_results : Nat

/-- The scoring loop of `search_products` (app.py:423-432): for each product
look up / derive its embedding through the cache, score it against the query
embedding, and pair it with the score rounded to 4 decimal places. -/
def score_products (query : String) : List Product → Cache → List (Product × ℚ) × Cache
  | [], c => ([], c)
  | p :: ps, c =>
    let pe := get_product_embedding c p
    let rest := score_products query ps pe.2
    ((p, round4 (calculate_similarity query pe.1)) :: rest.1, rest.2)

/-- `search_products` (app.py:422-445) after image analysis produced the
query embedding: score every product, sort descending by score (stable),
take the top 20, and report the length of the returned slice. -/
def search_products (query : String) (s : ServerState) : SearchResponse × ServerState :=
  let scored := score_products query s.products s.cache
  let top := (sortDesc scored.1).take 20
  (⟨top, top.length⟩, ⟨s.products, scored.2⟩)

/-- Cache consistency: any cached entry for a catalog product's identifier
holds exactly that product's embedding text.  Holds for the empty cache at
startup and is preserved by `get_product_embedding` on catalogs with unique
identifiers. -/
def CacheOK (c : Cache) (ps : List Product) : Prop :=
  ∀ p ∈ ps, ∀ v : String, cacheFind c p.id = some v → v = product_embedding_text p

/-- The claim-side description of the scored list: each catalog product in
order, paired with its rounded similarity against the query embedding. -/
def scoredList (query : String) (ps : List Product) : List (Product × ℚ) :=
  ps.map fun p => (p, round4 (calculate_similarity query (product_embedding_text p)))

lemma score_products_spec (query : String) :
    ∀ (ps : List Product) (c : Cache),
      (ps.map Product.id).Nodup → CacheOK c ps →
      (score_products query ps c).1 = scoredList query ps := by
  intro ps
  induction ps with
  | nil => intro c _ _; rfl
  | cons p ps ih =>
    intro c hnd hok
    rw [List.map_cons, List.nodup_cons] at hnd
    show ((p, round4 (calculate_similarity query (get_product_embedding c p).1))
        :: (score_products query ps (get_product_embedding c p).2).1)
      = scoredList query (p :: ps)
    rcases hfind : cacheFind c p.id with _ | e
    · have hemb : get_product_embedding c p
          = (product_embedding_text p, (p.id, product_embedding_text p) :: c) := by
        unfold get_product_embedding; rw [hfind]
      have hok2 : CacheOK ((p.id, product_embedding_text p) :: c) ps := by
        intro q hq v hv
        rw [cacheFind_cons] at hv
        have hne : p.id ≠ q.id := by
          intro he
          exact hnd.1 (he ▸ List.mem_map_of_mem Product.id hq)
        rw [if_neg hne] at hv
        exact hok q (List.mem_cons_of_mem p hq) v hv
      rw [hemb, scoredList, List.map_cons,
        ih ((p.id, product_embedding_text p) :: c) hnd.2 hok2]
      rfl
    · have he : e = product_embedding_text p :=
        hok p (List.mem_cons_self p ps) e hfind
      have hemb : get_product_embedding c p = (e, c) := by
        unfold get_product_embedding; rw [hfind]
      have hok2 : CacheOK c ps := fun q hq v hv =>
        hok q (List.mem_cons_of_mem p hq) v hv
      rw [hemb, he, scoredList, List.map_cons, ih c hnd.2 hok2]
      rfl

lemma CacheOK_nil (ps : List Product) : CacheOK ([] : Cache) ps := by
  intro p _ v hv
  simp [cacheFind] at hv

/-- C3: for every request, the search response pairs each catalog product
with its score rounded to 4 decimal places, sorts descending by score with
ties keeping catalog iteration order (a stable sort: per-score filters are
unchanged), returns at most the first 20 entries of the sorted list, and
reports `total_results` as the length of the returned list; the empty
catalog yields `results = []` and `total_results = 0`, not an error. -/
theorem search_products_ranking (query : String) (s : ServerState)
    (h1 : (s.products.map Product.id).Nodup)
    (h2 : CacheOK s.cache s.products) :
    (search_products query s).1.results
        = (sortDesc (scoredList query s.products)).take 20
    ∧ (search_products query s).1.total_results
        = (search_products query s).1.results.length
    ∧ (search_products query s).1.results.Pairwise (fun u v => v.2 ≤ u.2)
    ∧ (sortDesc (scoredList query s.products)).Perm (scoredList query s.products)
    ∧ (∀ v : ℚ, (sortDesc (scoredList query s.products)).filter (fun z => decide (z.2 = v))
        = (scoredList query s.products).filter (fun z => decide (z.2 = v)))
    ∧ (search_products query s).1.results.length ≤ 20
    ∧ (s.products = [] →
        (search_products query s).1.results = []
        ∧ (search_products query s).1.total_results = 0) := by
  have hres : (search_products query s).1.results
      = (sortDesc (scoredList query s.products)).take 20 := by
    show ((sortDesc (score_products query s.products s.cache).1).take 20)
      = (sortDesc (scoredList query s.products)).take 20
    rw [score_products_spec query s.products s.cache h1 h2]
  refine ⟨hres, rfl, ?_, sortDesc_perm _, fun v => filter_sortDesc _ v, ?_, ?_⟩
  · rw [hres]
    exact (sortDesc_sorted (scoredList query s.products)).sublist (List.take_sublist _ _)
  · rw [hres]
    exact (List.length_take_le _ _)
  · intro hps
    have : scoredList query s.products = [] := by rw [hps]; rfl
    constructor
    · rw [hres, this]; rfl
    · show ((sortDesc (score_products query s.products s.cache).1).take 20).length = 0
      rw [score_products_spec query s.products s.cache h1 h2, this]
      rfl

/-- Witness for C3: the end-to-end scenario of the spec, a one-product
catalog searched with its own embedding text as the query. -/
theorem search_products_ranking_witness :
    ((([⟨1, "Red Sneaker", "Footwear", 89, "u", "running shoes"⟩] : List Product).map
        Product.id).Nodup
      ∧ CacheOK ([] : Cache) [⟨1, "Red Sneaker", "Footwear", 89, "u", "running shoes"⟩])
    ∧ (search_products "red sneaker footwear running shoes"
          ⟨[⟨1, "Red Sneaker", "Footwear", 89, "u", "running shoes"⟩], []⟩).1.results
        = (sortDesc (scoredList "red sneaker footwear running shoes"
            [⟨1, "Red Sneaker", "Footwear", 89, "u", "running shoes"⟩])).take 20 :=
  ⟨⟨by decide, CacheOK_nil _⟩,
   (search_products_ranking "red sneaker footwear running shoes"
      ⟨[⟨1, "Red Sneaker", "Footwear", 89, "u", "running shoes"⟩], []⟩
      (by decide) (CacheOK_nil _)).1⟩

/-- The response of `/api/products` (app.py:489-506). -/
structure ProductsResponse where
  products : List Product
  count : Nat

/-- `get_products` (app.py:452-506): `request.args.get('category', None)` is
the optional argument; Python `if category:` is false for both `None` and
the empty string, so the filter branch runs only for a non-empty value. -/
def get_products (ps : List Product) (category : Option String) : ProductsResponse :=
  match category with
  | none => ⟨ps, ps.length⟩
  | some c =>
    if c = "" then ⟨ps, ps.length⟩
    else
      let filtered := ps.filter fun p => decide (lowerStr p.category = lowerStr c)
      ⟨filtered, filtered.length⟩

/-- C8: for a non-empty category query the listing returns exactly the
catalog products whose category matches case-insensitively, in catalog
order (a `filter`), with `count` the number returned; queries equal up to
letter case give identical responses. -/
theorem get_products_category_filter (ps : List Product) (c c' : String)
    (h : c ≠ "") (h' : c' ≠ "") (hcase : lowerStr c = lowerStr c') :
    (get_products ps (some c)).products
        = ps.filter (fun p => decide (lowerStr p.category = lowerStr c))
    ∧ (get_products ps (some c)).count = (get_products ps (some c)).products.length
    ∧ get_products ps (some c) = get_products ps (some c') := by
  refine ⟨?_, ?_, ?_⟩
  · simp [get_products, h]
  · simp [get_products, h]
  · simp [get_products, h, h', hcase]

/-- Witness for C8: "Footwear" versus "footwear" on a one-product catalog. -/
theorem get_products_category_filter_witness :
    ("Footwear" : String) ≠ "" ∧ ("footwear" : String) ≠ ""
    ∧ lowerStr "Footwear" = lowerStr "footwear"
    ∧ get_products [⟨1, "Red Sneaker", "Footwear", 89, "u", "running shoes"⟩] (some "Footwear")
        = get_products [⟨1, "Red Sneaker", "Footwear", 89, "u", "running shoes"⟩] (some "footwear") :=
  ⟨by decide, by decide, by decide,
   (get_products_category_filter [⟨1, "Red Sneaker", "Footwear", 89, "u", "running shoes"⟩]
     "Footwear" "footwear" (by decide) (by decide) (by decide)).2.2⟩

/-- C10: a present-but-empty `category` parameter behaves exactly like an
absent one: the full catalog and its total count are returned, because the
truthiness test `if category:` rejects the empty string. -/
theorem get_products_empty_category (ps : List Product) :
    get_products ps (some "") = get_products ps none
    ∧ (get_products ps (some "")).products = ps
    ∧ (get_products ps (some "")).count = ps.length := by
  refine ⟨?_, rfl, rfl⟩
  simp [get_products]

/-- JSON values, modelling what `json.loads` can return inside
`analyze_image` (app.py:127). -/
inductive JsonValue : Type
  | null : JsonValue
  | bool : Bool → JsonValue
  | num : ℚ → JsonValue
  | str : String → JsonValue
  | arr : List JsonValue → JsonValue
  | obj : List (String × JsonValue) → JsonValue

/-- A Python dict with string keys, as an ordered association list
(lookup finds the first occurrence, insertion of a new key appends). -/
abbrev Dict : Type := List (String × JsonValue)

/-- Python `d.get(k)` / `k in d`. -/
def dictGet (d : Dict) (k : String) : Option JsonValue :=
  match d with
  | [] => none
  | (k1, v) :: rest => if k1 = k then some v else dictGet rest k

/-- Python `d[k] = v`: replace an existing key in place, else append. -/
def dictSet (d : Dict) (k : String) (v : JsonValue) : Dict :=
  match d with
  | [] => [(k, v)]
  | (k1, v1) :: rest => if k1 = k then (k1, v) :: rest else (k1, v1) :: dictSet rest k v

/-- Python `d.setdefault(k, v)`: insert only when the key is absent. -/
def setdefault (d : Dict) (k : String) (v : JsonValue) : Dict :=
  match dictGet d k with
  | some _ => d
  | none => d ++ [(k, v)]

/-- Whether an optional JSON value is a string. -/
def isStrOpt : Option JsonValue → Bool
  | some (JsonValue.str _) => true
  | _ => false

/-- Whether an optional JSON value is a list (`isinstance(v, list)`). -/
def isArrOpt : Option JsonValue → Bool
  | some (JsonValue.arr _) => true
  | _ => false

/-- Whether an optional JSON value is the empty list. -/
def isEmptyArrOpt : Option JsonValue → Bool
  | some (JsonValue.arr []) => true
  | _ => false

/-- Whether a JSON value is an object (a Python dict). -/
def isObjB : JsonValue → Bool
  | JsonValue.obj _ => true
  | _ => false

/-- The five list-valued fields normalized at app.py:144. -/
def list_keys : List String :=
  ["colors", "materials", "style", "objects", "suggested_tags"]

/-- One iteration of the loop at app.py:144-146:
`v = analysis.get(k, []); analysis[k] = v if isinstance(v, list) else []`. -/
def coerceList (d : Dict) (k : String) : Dict :=
  let v := (dictGet d k).getD (JsonValue.arr [])
  dictSet d k (match v with
    | JsonValue.arr a => JsonValue.arr a
    | _ => JsonValue.arr [])

/-- The post-parse normalization at app.py:141-146: default `summary` and
`category` with `setdefault`, then coerce the five list fields. -/
def normalize (analysis : Dict) : Dict :=
  let a1 := setdefault analysis "summary" (JsonValue.str "")
  let a2 := setdefault a1 "category" (JsonValue.str "Unknown")
  list_keys.foldl coerceList a2

/-- The offline fallback returned when no credential is configured
(app.py:79-89). -/
def offline_fallback : Dict :=
  [("summary", JsonValue.str "Image uploaded. AI analysis is unavailable in offline mode."),
   ("category", JsonValue.str "Unknown"),
   ("colors", JsonValue.arr []), ("materials", JsonValue.arr []),
   ("style", JsonValue.arr []), ("objects", JsonValue.arr []),
   ("suggested_tags", JsonValue.arr [])]

/-- The best-effort wrap built when `json.loads` fails (app.py:131-140). -/
def parse_fallback (text : String) : Dict :=
  [("summary", JsonValue.str (if text = "" then "Unable to analyze image." else text.take 600)),
   ("category", JsonValue.str "Unknown"),
   ("colors", JsonValue.arr []), ("materials", JsonValue.arr []),
   ("style", JsonValue.arr []), ("objects", JsonValue.arr []),
   ("suggested_tags", JsonValue.arr [])]

/-- The last-resort fallback of the outer `except` (app.py:148-159). -/
def error_fallback : Dict :=
  [("summary", JsonValue.str "Unable to analyze image at this time."),
   ("category", JsonValue.str "Unknown"),
   ("colors", JsonValue.arr []), ("materials", JsonValue.arr []),
   ("style", JsonValue.arr []), ("objects", JsonValue.arr []),
   ("suggested_tags", JsonValue.arr [])]

/-- The observable outcome of the provider interaction inside
`analyze_image`: the credential may be absent, the call or response
handling may raise, `json.loads` may fail on the extracted text, or it
may produce a JSON value.  The network call and the textual fence/brace
munging (app.py:92-124) are abstracted into this input. -/
inductive ProviderOutcome : Type
  | notConfigured : ProviderOutcome
  | raises : ProviderOutcome
  | parseFailure : String → ProviderOutcome
  | parsed : JsonValue → ProviderOutcome

/-- `analyze_image` (app.py:73-159) as a function of the provider outcome.
A parsed non-object makes `analysis.setdefault` raise `AttributeError`,
which the outer `except` converts to `error_fallback`. -/
def analyze_image : ProviderOutcome → Dict
  | ProviderOutcome.notConfigured => offline_fallback
  | ProviderOutcome.raises => error_fallback
  | ProviderOutcome.parseFailure text => normalize (parse_fallback text)
  | ProviderOutcome.parsed j =>
    match j with
    | JsonValue.obj d => normalize d
    | _ => error_fallback

lemma dictGet_dictSet_self (d : Dict) (k : String) (v : JsonValue) :
    dictGet (dictSet d k v) k = some v := by
  induction d with
  | nil => simp [dictGet, dictSet]
  | cons x rest ih =>
    obtain ⟨k1, v1⟩ := x
    by_cases h : k1 = k
    · simp [dictGet, dictSet, h]
    · simp [dictGet, dictSet, h, ih]

lemma dictGet_dictSet_ne (d : Dict) {k k1 : String} (v : JsonValue) (h : k1 ≠ k) :
    dictGet (dictSet d k v) k1 = dictGet d k1 := by
  induction d with
  | nil => simp [dictGet, dictSet, Ne.symm h]
  | cons x rest ih =>
    obtain ⟨k2, v2⟩ := x
    by_cases h2 : k2 = k
    · subst h2
      simp [dictGet, dictSet, Ne.symm h]
    · simp only [dictSet, if_neg h2]
      by_cases h3 : k2 = k1
      · simp [dictGet, h3]
      · simp [dictGet, h3, ih]

lemma dictGet_append_of_none {d1 : Dict} (d2 : Dict) {k : String}
    (h : dictGet d1 k = none) : dictGet (d1 ++ d2) k = dictGet d2 k := by
  induction d1 with
  | nil => rfl
  | cons x rest ih =>
    obtain ⟨k1, v1⟩ := x
    by_cases h1 : k1 = k
    · simp [dictGet, h1] at h
    · simp only [dictGet, if_neg h1] at h
      simp [dictGet, if_neg h1, ih h]

lemma dictGet_append_of_some {d1 : Dict} (d2 : Dict) {k : String} {w : JsonValue}
    (h : dictGet d1 k = some w) : dictGet (d1 ++ d2) k = some w := by
  induction d1 with
  | nil => simp [dictGet] at h
  | cons x rest ih =>
    obtain ⟨k1, v1⟩ := x
    by_cases h1 : k1 = k
    · simp only [dictGet, if_pos h1] at h
      simp [dictGet, if_pos h1, h]
    · simp only [dictGet, if_neg h1] at h
      simp [dictGet, if_neg h1, ih h]

lemma dictGet_setdefault_isSome (d : Dict) (k : String) (v : JsonValue) :
    (dictGet (setdefault d k v) k).isSome = true := by
  unfold setdefault
  rcases h : dictGet d k with _ | w
  · show (dictGet (d ++ [(k, v)]) k).isSome = true
    rw [dictGet_append_of_none _ h]
    simp [dictGet]
  · show (dictGet d k).isSome = true
    rw [h]
    rfl

lemma dictGet_setdefault_ne (d : Dict) {k k1 : String} (v : JsonValue) (h : k1 ≠ k) :
    dictGet (setdefault d k v) k1 = dictGet d k1 := by
  unfold setdefault
  rcases h2 : dictGet d k with _ | w
  · show dictGet (d ++ [(k, v)]) k1 = dictGet d k1
    rcases h3 : dictGet d k1 with _ | w1
    · rw [dictGet_append_of_none _ h3]
      simp [dictGet, Ne.symm h]
    · rw [dictGet_append_of_some _ h3]
  · rfl

lemma isArrOpt_coerceList_self (d : Dict) (k : String) :
    isArrOpt (dictGet (coerceList d k) k) = true := by
  unfold coerceList
  rw [dictGet_dictSet_self]
  rcases (dictGet d k).getD (JsonValue.arr []) with _ | b | q | s | a | o <;> rfl

lemma dictGet_coerceList_ne (d : Dict) {k k1 : String} (h : k1 ≠ k) :
    dictGet (coerceList d k) k1 = dictGet d k1 :=
  dictGet_dictSet_ne d _ h

lemma normalize_unfold (d : Dict) :
    normalize d =
      coerceList (coerceList (coerceList (coerceList (coerceList
        (setdefault (setdefault d "summary" (JsonValue.str ""))
          "category" (JsonValue.str "Unknown"))
        "colors") "materials") "style") "objects") "suggested_tags" := rfl

lemma normalize_summary_isSome (d : Dict) :
    (dictGet (normalize d) "summary").isSome = true := by
  rw [normalize_unfold,
    dictGet_coerceList_ne _ (by decide), dictGet_coerceList_ne _ (by decide),
    dictGet_coerceList_ne _ (by decide), dictGet_coerceList_ne _ (by decide),
    dictGet_coerceList_ne _ (by decide), dictGet_setdefault_ne _ _ (by decide)]
  exact dictGet_setdefault_isSome d "summary" (JsonValue.str "")

lemma normalize_category_isSome (d : Dict) :
    (dictGet (normalize d) "category").isSome = true := by
  rw [normalize_unfold,
    dictGet_coerceList_ne _ (by decide), dictGet_coerceList_ne _ (by decide),
    dictGet_coerceList_ne _ (by decide), dictGet_coerceList_ne _ (by decide),
    dictGet_coerceList_ne _ (by decide)]
  exact dictGet_setdefault_isSome _ "category" (JsonValue.str "Unknown")

lemma normalize_all_lists (d : Dict) :
    (list_keys.all fun k => isArrOpt (dictGet (normalize d) k)) = true := by
  have h1 : isArrOpt (dictGet (normalize d) "colors") = true := by
    rw [normalize_unfold,
      dictGet_coerceList_ne _ (by decide), dictGet_coerceList_ne _ (by decide),
      dictGet_coerceList_ne _ (by decide), dictGet_coerceList_ne _ (by decide)]
    exact isArrOpt_coerceList_self _ "colors"
  have h2 : isArrOpt (dictGet (normalize d) "materials") = true := by
    rw [normalize_unfold,
      dictGet_coerceList_ne _ (by decide), dictGet_coerceList_ne _ (by decide),
      dictGet_coerceList_ne _ (by decide)]
    exact isArrOpt_coerceList_self _ "materials"
  have h3 : isArrOpt (dictGet (normalize d) "style") = true := by
    rw [normalize_unfold,
      dictGet_coerceList_ne _ (by decide), dictGet_coerceList_ne _ (by decide)]
    exact isArrOpt_coerceList_self _ "style"
  have h4 : isArrOpt (dictGet (normalize d) "objects") = true := by
    rw [normalize_unfold, dictGet_coerceList_ne _ (by decide)]
    exact isArrOpt_coerceList_self _ "objects"
  have h5 : isArrOpt (dictGet (normalize d) "suggested_tags") = true := by
    rw [normalize_unfold]
    exact isArrOpt_coerceList_self _ "suggested_tags"
  simp [list_keys, h1, h2, h3, h4, h5]

/-- C5 counterexample: with a parsed payload `{"summary": null}` the
returned description's `summary` is `null`, not a string — `setdefault`
only fills values for absent keys and never retypes a present `null`. -/
theorem analyze_image_null_summary_not_string :
    dictGet (analyze_image (ProviderOutcome.parsed
        (JsonValue.obj [("summary", JsonValue.null)]))) "summary" = some JsonValue.null
    ∧ isStrOpt (dictGet (analyze_image (ProviderOutcome.parsed
        (JsonValue.obj [("summary", JsonValue.null)]))) "summary") = false := by
  exact ⟨rfl, rfl⟩

/-- C5 (amended): for every provider outcome the returned description has
`summary` and `category` keys present (defaulted to `""` / `"Unknown"`
when absent, but kept as-is — possibly non-string — when present), and
each of the five list fields is a list, non-list values replaced by the
empty list. -/
theorem analyze_image_normalization_fields (o : ProviderOutcome) :
    (dictGet (analyze_image o) "summary").isSome = true
    ∧ (dictGet (analyze_image o) "category").isSome = true
    ∧ (list_keys.all fun k => isArrOpt (dictGet (analyze_image o) k)) = true
    ∧ dictGet (analyze_image (ProviderOutcome.parsed (JsonValue.obj []))) "summary"
        = some (JsonValue.str "")
    ∧ dictGet (analyze_image (ProviderOutcome.parsed (JsonValue.obj []))) "category"
        = some (JsonValue.str "Unknown") := by
  refine ⟨?_, ?_, ?_, rfl, rfl⟩ <;>
    cases o with
    | notConfigured => rfl
    | raises => rfl
    | parseFailure text =>
      first
        | exact normalize_summary_isSome (parse_fallback text)
        | exact normalize_category_isSome (parse_fallback text)
        | exact normalize_all_lists (parse_fallback text)
    | parsed j =>
      cases j with
      | obj d =>
        first
          | exact normalize_summary_isSome d
          | exact normalize_category_isSome d
          | exact normalize_all_lists d
      | null => rfl
      | bool b => rfl
      | num q => rfl
      | str s => rfl
      | arr a => rfl

/-- C7: `analyze_image` converts every provider failure into data: an
absent credential short-circuits to the fixed offline fallback with no
provider call; an exception during the call or during response handling
(here: a parsed non-object payload, on which `.setdefault` raises) yields
the last-resort fallback, whose category is "Unknown" and whose five list
fields are all empty lists. -/
theorem analyze_image_fallback_total (j : JsonValue) (h : isObjB j = false) :
    analyze_image ProviderOutcome.notConfigured = offline_fallback
    ∧ analyze_image ProviderOutcome.raises = error_fallback
    ∧ analyze_image (ProviderOutcome.parsed j) = error_fallback
    ∧ dictGet error_fallback "category" = some (JsonValue.str "Unknown")
    ∧ (list_keys.all fun k => isEmptyArrOpt (dictGet error_fallback k)) = true := by
  refine ⟨rfl, rfl, ?_, rfl, rfl⟩
  cases j with
  | obj d => exact absurd h (by simp [isObjB])
  | null => rfl
  | bool b => rfl
  | num q => rfl
  | str s => rfl
  | arr a => rfl

/-- Witness for C7 at the concrete non-object payload `null`. -/
theorem analyze_image_fallback_total_witness :
    isObjB JsonValue.null = false
    ∧ analyze_image (ProviderOutcome.parsed JsonValue.null) = error_fallback :=
  ⟨rfl, (analyze_image_fallback_total JsonValue.null rfl).2.2.1⟩

/-- The spec's Structured Image Description data shape (spec §3), the
input domain `build_query_embedding` is specified over: `summary` and
`category` strings and five lists of strings (Python `str()` applied to a
string is the identity). -/
structure StructuredDescription : Type where
  summary : String
  category : String
  colors : List String
  materials : List String
  style : List String
  objects : List String
  suggested_tags : List String

/-- Python `' '.join(parts)`. -/
def pyJoinSp : List String → String
  | [] => ""
  | [p] => p
  | p :: q :: rest => p ++ " " ++ pyJoinSp (q :: rest)

/-- Python `str.strip()` (ASCII whitespace). -/
def pyStrip (s : String) : String :=
  ⟨((s.data.dropWhile pyIsSpace).reverse.dropWhile pyIsSpace).reverse⟩

/-- `build_query_embedding` (app.py:162-173): the fields in fixed order,
list fields space-joined, truthy (non-empty) parts kept, joined with
single spaces and stripped. -/
def build_query_embedding (analysis : StructuredDescription) : String :=
  let parts : List String :=
    [analysis.summary, analysis.category,
     pyJoinSp analysis.colors, pyJoinSp analysis.materials,
     pyJoinSp analysis.style, pyJoinSp analysis.objects,
     pyJoinSp analysis.suggested_tags]
  pyStrip (pyJoinSp (parts.filter fun p => decide (p ≠ "")))

lemma build_query_embedding_eq (a : StructuredDescription) :
    build_query_embedding a =
      pyStrip (pyJoinSp (([a.summary, a.category,
        pyJoinSp a.colors, pyJoinSp a.materials, pyJoinSp a.style,
        pyJoinSp a.objects, pyJoinSp a.suggested_tags]).filter
          fun p => decide (p ≠ ""))) := rfl

/-- Claim-side join: walk the parts in order, skip the empty ones, and
join the survivors with single spaces. -/
def joinSkipEmpty : List String → String
  | [] => ""
  | p :: rest =>
    if p = "" then joinSkipEmpty rest
    else if joinSkipEmpty rest = "" then p
    else p ++ " " ++ joinSkipEmpty rest

/-- Claim-side reformulation of the Query Embedder contract (spec §4.4):
concatenate in fixed field order, skipping empty parts, with single
spaces, then trim. -/
def build_query_embedding_claim (a : StructuredDescription) : String :=
  pyStrip (joinSkipEmpty
    [a.summary, a.category,
     pyJoinSp a.colors, pyJoinSp a.materials, pyJoinSp a.style,
     pyJoinSp a.objects, pyJoinSp a.suggested_tags])

lemma append_space_ne_empty (a b : String) : a ++ " " ++ b ≠ "" := by
  obtain ⟨la⟩ := a
  obtain ⟨lb⟩ := b
  intro h
  have h2 : (la ++ [' ']) ++ lb = [] := congrArg String.data h
  simp at h2

lemma joinSkipEmpty_eq (l : List String) :
    joinSkipEmpty l = pyJoinSp (l.filter fun p => decide (p ≠ "")) := by
  induction l with
  | nil => rfl
  | cons p rest ih =>
    show (if p = "" then joinSkipEmpty rest
      else if joinSkipEmpty rest = "" then p
      else p ++ " " ++ joinSkipEmpty rest) = _
    by_cases hp : p = ""
    · have hfc : List.filter (fun p => decide (p ≠ "")) (p :: rest)
          = List.filter (fun p => decide (p ≠ "")) rest := by
        rw [List.filter_cons]
        simp [hp]
      rw [if_pos hp, ih, hfc]
    · have hfc : List.filter (fun p => decide (p ≠ "")) (p :: rest)
          = p :: List.filter (fun p => decide (p ≠ "")) rest := by
        rw [List.filter_cons]
        simp [hp]
      rw [if_neg hp, hfc]
      rcases hf : List.filter (fun p => decide (p ≠ "")) rest with _ | ⟨q, t⟩
      · rw [ih, hf]
        rfl
      · have hq : q ≠ "" := by
          have hm : q ∈ List.filter (fun p => decide (p ≠ "")) rest :=
            hf ▸ List.mem_cons_self q t
          exact of_decide_eq_true (List.mem_filter.mp hm).2
        have hne : pyJoinSp (q :: t) ≠ "" := by
          cases t with
          | nil => exact hq
          | cons r rs => exact append_space_ne_empty q (pyJoinSp (r :: rs))
        rw [ih, hf, if_neg hne]
        rfl

/-- C6: `build_query_embedding` is the pure fixed-order concatenation the
spec describes — empty parts are skipped before joining, so (second
conjunct) a description with an empty `materials` list yields no extra
whitespace token for that field. -/
theorem build_query_embedding_spec_equiv (analysis : StructuredDescription) :
    build_query_embedding analysis = build_query_embedding_claim analysis
    ∧ build_query_embedding ⟨"red shoe", "Footwear", ["red"], [], ["casual"], [], []⟩
        = "red shoe Footwear red casual" := by
  constructor
  · rw [build_query_embedding_eq]
    unfold build_query_embedding_claim
    rw [joinSkipEmpty_eq]
  · rfl

end VPM
